import Mathlib

/-!
Verification of the skaffold artifact build cache and its collaborators.

The artifact cache subsystem (hasher, store, decision engine, orchestrator)
is modelled from the specification; the cluster builder's dependency
resolution and the kubectl sync commands are embedded from the source files
`pkg/skaffold/build/cluster/types.go` and `pkg/skaffold/sync/kubectl.go`.
-/

set_option autoImplicit false

namespace Skaffold

/-- One buildable unit: a stable image name (the cache key) together with the
build configuration the hasher folds into the content hash. -/
structure Artifact where
  imageName : String
  config : String
deriving DecidableEq

/-- A build result returned to the caller: an image name and a tag. -/
structure BuildResult where
  imageName : String
  tag : String
deriving DecidableEq

/-- Modelled from the spec: a Content Hash is a deterministic digest over the
build configuration plus each dependency's path and content digest, with the
dependency entries sorted by path.  The digest is kept in canonical structured
form, which makes it collision free as the spec demands. -/
abbrev ContentHash := String × List (String × String)

/-- Modelled from the spec: a Cache Entry persisted per artifact identity:
content hash, image digest and tag. -/
structure CacheEntry where
  hash : ContentHash
  digest : String
  tag : String
deriving DecidableEq

/-- Modelled from the spec: the Cache Store, a mapping from artifact identity
to cache entry, represented as an association list. -/
abbrev Store := List (String × CacheEntry)

/-- Modelled from the spec: the environment a build request runs in: the
external dependency lister, the dependency files' contents, the two digest
sources and the caller-assigned tags. -/
structure CacheEnv where
  lister : String → Option (List String)
  fs : String → String
  localDigest : String → Option String
  remoteDigest : String → Option String
  tags : String → String

/-- Modelled from the spec: the digest source selected once at construction:
the local image runtime when `useLocal` is set, the remote registry otherwise. -/
def digestSource (useLocal : Bool) (env : CacheEnv) : String → Option String :=
  if useLocal then env.localDigest else env.remoteDigest

/-- Byte-wise comparison on characters, lifted lexicographically to lists. -/
def charsLe : List Char → List Char → Bool
  | [], _ => true
  | _ :: _, [] => false
  | a :: as, b :: bs =>
    if a.toNat < b.toNat then true
    else if b.toNat < a.toNat then false
    else charsLe as bs

/-- Lexicographic comparison of strings, used to sort dependency paths. -/
def strLe (s t : String) : Bool := charsLe s.data t.data

/-- Insert a path into an already sorted list of paths. -/
def insertSorted (p : String) : List String → List String
  | [] => [p]
  | q :: rest => if strLe p q then p :: q :: rest else q :: insertSorted p rest

/-- Modelled from the spec: sorting of dependency entries by path, so that
unordered file discovery cannot change the hash. -/
def sortPaths : List String → List String
  | [] => []
  | p :: rest => insertSorted p (sortPaths rest)

/-- Modelled from the spec: the Dependency Hasher.  It asks the external
lister for the artifact's dependency paths (failing when the lister fails),
sorts them, and folds the build configuration together with each dependency's
path and content digest into the hash. -/
def computeHash (env : CacheEnv) (a : Artifact) : Option ContentHash :=
  (env.lister a.imageName).map
    (fun deps => (a.config, (sortPaths deps).map (fun p => (p, env.fs p))))

/-- Classification of one artifact by the decision engine: a confirmed hit
carrying its reusable build result, or a miss that must be rebuilt. -/
inductive Classification where
  | hit (r : BuildResult)
  | miss
deriving DecidableEq

/-- Whether a classification is a confirmed hit. -/
def isHit : Classification → Bool
  | .hit _ => true
  | .miss => false

/-- First entry of the store whose key equals `k`. -/
def lookupStore : Store → String → Option CacheEntry
  | [], _ => none
  | (k2, e) :: rest, k => if k2 = k then some e else lookupStore rest k

/-- Upsert: overwrite the entry for `k`, or append a new one. -/
def putStore : Store → String → CacheEntry → Store
  | [], k, e => [(k, e)]
  | (k2, e2) :: rest, k, e =>
    if k2 = k then (k, e) :: rest else (k2, e2) :: putStore rest k e

/-- Modelled from the spec: the Cache Decision Engine for one artifact.
A hash failure, a missing entry, a hash mismatch, a failed digest lookup or a
digest differing from the recorded one are all misses; a confirmed hit reuses
the stored tag, with the confirmed digest appended in remote mode. -/
def resolveArtifact (useLocal : Bool) (env : CacheEnv) (store : Store)
    (a : Artifact) : Classification :=
  match computeHash env a with
  | none => .miss
  | some h =>
    match lookupStore store a.imageName with
    | none => .miss
    | some e =>
      if e.hash = h then
        match digestSource useLocal env e.tag with
        | none => .miss
        | some d =>
          if d = e.digest then
            .hit ⟨a.imageName, if useLocal then e.tag else e.tag ++ "@" ++ d⟩
          else .miss
      else .miss

/-- Serialization of the dependency pair list, two tokens per pair. -/
def encodePairs : List (String × String) → List String
  | [] => []
  | (p, c) :: rest => p :: c :: encodePairs rest

/-- Serialization of one store entry: key, configuration, digest, tag, a
token whose length is the number of dependency pairs, then the pairs. -/
def encodeEntry (kv : String × CacheEntry) : List String :=
  kv.1 :: kv.2.hash.1 :: kv.2.digest :: kv.2.tag ::
    String.mk (List.replicate kv.2.hash.2.length 'x') :: encodePairs kv.2.hash.2

/-- Modelled from the spec: serialization of the whole store for `Flush`. -/
def encodeStore : Store → List String
  | [] => []
  | kv :: rest => encodeEntry kv ++ encodeStore rest

/-- Parse `n` dependency pairs, returning them with the remaining tokens. -/
def decodePairs : Nat → List String → Option (List (String × String) × List String)
  | 0, rest => some ([], rest)
  | n + 1, p :: c :: rest =>
    (decodePairs n rest).map (fun pr => ((p, c) :: pr.1, pr.2))
  | _ + 1, [] => none
  | _ + 1, [_] => none

/-- Fuelled parser for a serialized store; any malformed token sequence
rejects with `none`. -/
def decodeStoreAux : Nat → List String → Option Store
  | _, [] => some []
  | 0, _ :: _ => none
  | fuel + 1, k :: cfg :: dg :: tg :: cnt :: rest =>
    match decodePairs cnt.length rest with
    | none => none
    | some (pairs, rest2) =>
      (decodeStoreAux fuel rest2).map (fun s => (k, ⟨(cfg, pairs), dg, tg⟩) :: s)
  | _ + 1, _ => none

/-- Modelled from the spec: deserialization of the on-disk representation;
returns `none` on malformed content. -/
def decodeStore (toks : List String) : Option Store := decodeStoreAux toks.length toks

/-- Modelled from the spec: `Load` of the cache store.  A missing file
(`none`) or malformed content yields the empty mapping, never a failure. -/
def loadDisk (disk : Option (List String)) : Store :=
  match disk with
  | none => []
  | some toks => (decodeStore toks).getD []

/-- Modelled from the spec: `Flush` serializes the full mapping back to disk,
overwriting the previous file. -/
def flushStore (s : Store) : Option (List String) := some (encodeStore s)

/-- Modelled from the spec: the cache entry written after a successful build:
the fresh content hash, the assigned tag, and the digest obtained from a
subsequent digest query on that tag (empty when unknown). -/
def newEntry (useLocal : Bool) (env : CacheEnv) (a : Artifact)
    (h : ContentHash) : CacheEntry :=
  { hash := h
    digest := (digestSource useLocal env (env.tags a.imageName)).getD ""
    tag := env.tags a.imageName }

/-- Modelled from the spec: after the misses are built, a new cache entry is
written for each of them (skipped when its hash cannot be computed). -/
def updateStore (useLocal : Bool) (env : CacheEnv) (misses : List Artifact)
    (store : Store) : Store :=
  misses.foldl (fun st a =>
    match computeHash env a with
    | some h => putStore st a.imageName (newEntry useLocal env a h)
    | none => st) store

/-- First build result whose image name equals `name`. -/
def findResult : List BuildResult → String → Option BuildResult
  | [], _ => none
  | r :: rest, name => if r.imageName = name then some r else findResult rest name

/-- The outcome of one `Build` call: the propagated result, the state of the
persisted store after the call, and the artifacts `buildFn` was invoked on. -/
structure BuildOutcome where
  res : Except String (List BuildResult)
  disk : Option (List String)
  invoked : List Artifact

/-- Modelled from the spec: the artifacts classified as misses, in the
caller's order. -/
def missList (useLocal : Bool) (env : CacheEnv) (store : Store)
    (artifacts : List Artifact) : List Artifact :=
  artifacts.filter (fun a => !(isHit (resolveArtifact useLocal env store a)))

/-- Modelled from the spec: hit results and newly built results merged back
into the caller's original artifact ordering. -/
def mergeResults (useLocal : Bool) (env : CacheEnv) (store : Store)
    (builtResults : List BuildResult) (artifacts : List Artifact) : List BuildResult :=
  artifacts.filterMap (fun a =>
    match resolveArtifact useLocal env store a with
    | .hit r => some r
    | .miss => findResult builtResults a.imageName)

/-- Modelled from the spec: the Build Orchestrator.  With caching disabled it
degrades to always-miss and performs no store I/O.  Otherwise it loads the
store, classifies each artifact, invokes `buildFn` on the misses only,
propagates a build failure unchanged without touching the store, and on
success writes the new entries, flushes once, and merges hit results with
built results in the caller's original artifact order. -/
def Build (useCache useLocal : Bool) (env : CacheEnv) (disk : Option (List String))
    (buildFn : List Artifact → Except String (List BuildResult))
    (artifacts : List Artifact) : BuildOutcome :=
  if useCache then
    match buildFn (missList useLocal env (loadDisk disk) artifacts) with
    | .error e =>
      { res := .error e, disk := disk
        invoked := missList useLocal env (loadDisk disk) artifacts }
    | .ok builtResults =>
      { res := .ok (mergeResults useLocal env (loadDisk disk) builtResults artifacts)
        disk := flushStore (updateStore useLocal env
          (missList useLocal env (loadDisk disk) artifacts) (loadDisk disk))
        invoked := missList useLocal env (loadDisk disk) artifacts }
  else
    { res := buildFn artifacts, disk := disk, invoked := artifacts }

/-- Modelled from the spec: the tag a well-behaved builder assigns to a built
artifact: the caller-assigned tag, with the pushed digest appended in
remote/push mode. -/
def canonicalTag (useLocal : Bool) (env : CacheEnv) (a : Artifact) : String :=
  if useLocal then env.tags a.imageName
  else env.tags a.imageName ++ "@" ++
    (digestSource useLocal env (env.tags a.imageName)).getD ""

/-- Modelled from the spec: a deterministic builder consistent with the digest
sources — the model of the mock builder of the tests: it builds every artifact
it is given and returns one result per artifact, in order. -/
def canonicalBuildFn (useLocal : Bool) (env : CacheEnv)
    (l : List Artifact) : Except String (List BuildResult) :=
  .ok (l.map (fun a => ⟨a.imageName, canonicalTag useLocal env a⟩))

/-! ### The cluster builder (`pkg/skaffold/build/cluster/types.go`) -/

/-- The Kaniko-specific build configuration carried by an artifact. -/
structure KanikoArtifact where
  dockerfilePath : String
  buildArgs : List (String × String)
deriving DecidableEq

/-- An artifact as seen by the cluster builder: its image name, workspace, and
an optional Kaniko artifact type (`nil` in Go when the type is undefined). -/
structure ClusterArtifact where
  imageName : String
  workspace : String
  kanikoArtifact : Option KanikoArtifact

/-- Modelled from the spec: `util.AbsolutePaths` resolves each returned
dependency path against the workspace, leaving already absolute paths alone
(the util package is not part of the sources). -/
def absolutePath (workspace p : String) : String :=
  if p.data.head? = some '/' then p else workspace ++ "/" ++ p

/-- Modelled from the spec: `util.AbsolutePaths` over a path list. -/
def absolutePaths (workspace : String) (paths : List String) : List String :=
  paths.map (absolutePath workspace)

/-- `Builder.DependenciesForArtifact` from `build/cluster/types.go`: only a
Kaniko artifact is supported — any other artifact type yields the
"undefined artifact type" error; a failure of `docker.GetDependencies`
(abstracted as the `getDependencies` collaborator) is returned unchanged;
otherwise the dependency paths are resolved to absolute paths against the
artifact's workspace. -/
def DependenciesForArtifact
    (getDependencies : String → KanikoArtifact → Except String (List String))
    (a : ClusterArtifact) : Except String (List String) :=
  match a.kanikoArtifact with
  | some k =>
    match getDependencies a.workspace k with
    | .error e => .error e
    | .ok paths => .ok (absolutePaths a.workspace paths)
  | none => .error ("undefined artifact type")

/-! ### The kubectl sync commands (`pkg/skaffold/sync/kubectl.go`) -/

/-- The pod metadata used by the sync commands (`pod.Name`,
`pod.Namespace`). -/
structure PodMeta where
  name : String
  nspace : String
deriving DecidableEq

/-- The container metadata used by the sync commands (`container.Name`). -/
structure Container where
  name : String
deriving DecidableEq

/-- A sync map: source path to destination paths, in iteration order. -/
abbrev SyncMap := List (String × List String)

/-- An executable command: the program and its argument list. -/
structure Cmd where
  prog : String
  args : List String
deriving DecidableEq

/-- `deleteFileFn` from `sync/kubectl.go`: builds the fixed
`kubectl exec … -- rm -rf --` argument list and appends each entry's
destination paths in iteration order. -/
def deleteFileFn (pod : PodMeta) (container : Container) (files : SyncMap) : Cmd :=
  let args := ["exec", pod.name, "--namespace", pod.nspace, "-c", container.name,
    "--", "rm", "-rf", "--"]
  let args := files.foldl (fun acc dsts => acc ++ dsts.2) args
  { prog := "kubectl", args := args }

/-! ### The end-to-end scenario of the tests

Artifacts `artifact1` (deps `dep1`, `dep2`) and `artifact2` (dep `dep3`) with
initial contents `content1`/`content2`/`content3`, as in `TestCacheBuildLocal`
and `TestCacheBuildRemote`. -/

/-- First artifact of the end-to-end scenario. -/
def artifactA : Artifact := ⟨"artifact1", "cfg1"⟩

/-- Second artifact of the end-to-end scenario. -/
def artifactB : Artifact := ⟨"artifact2", "cfg2"⟩

/-- The scenario environment: dependency lists, initial file contents, digest
fixtures for both the local daemon and the remote registry, and the tags. -/
def scenarioEnv : CacheEnv :=
  { lister := fun n =>
      if n = "artifact1" then some ["dep1", "dep2"]
      else if n = "artifact2" then some ["dep3"] else none
    fs := fun p =>
      if p = "dep1" then "content1"
      else if p = "dep2" then "content2"
      else if p = "dep3" then "content3" else ""
    localDigest := fun t =>
      if t = "artifact1:tag1" then some "sha256:aaa"
      else if t = "artifact2:tag2" then some "sha256:bbb" else none
    remoteDigest := fun t =>
      if t = "artifact1:tag1" then some "sha256:51ae7fa00c92"
      else if t = "artifact2:tag2" then some "sha256:35bdf2619f59" else none
    tags := fun n =>
      if n = "artifact1" then "artifact1:tag1"
      else if n = "artifact2" then "artifact2:tag2" else "" }

/-- The scenario environment after `dep1`'s content is mutated. -/
def scenarioEnvChanged : CacheEnv :=
  { scenarioEnv with
    fs := fun p => if p = "dep1" then "new content" else scenarioEnv.fs p }

/-- First local-mode call, starting from a missing cache file. -/
def localOut1 : BuildOutcome :=
  Build true true scenarioEnv none (canonicalBuildFn true scenarioEnv)
    [artifactA, artifactB]

/-- Second local-mode call, files unchanged. -/
def localOut2 : BuildOutcome :=
  Build true true scenarioEnv localOut1.disk (canonicalBuildFn true scenarioEnv)
    [artifactA, artifactB]

/-- Third local-mode call, after mutating `dep1`. -/
def localOut3 : BuildOutcome :=
  Build true true scenarioEnvChanged localOut2.disk
    (canonicalBuildFn true scenarioEnvChanged) [artifactA, artifactB]

/-- First remote-mode call, starting from a missing cache file. -/
def remoteOut1 : BuildOutcome :=
  Build true false scenarioEnv none (canonicalBuildFn false scenarioEnv)
    [artifactA, artifactB]

/-- Second remote-mode call, files unchanged. -/
def remoteOut2 : BuildOutcome :=
  Build true false scenarioEnv remoteOut1.disk
    (canonicalBuildFn false scenarioEnv) [artifactA, artifactB]

/-- Third remote-mode call, after mutating `dep1`. -/
def remoteOut3 : BuildOutcome :=
  Build true false scenarioEnvChanged remoteOut2.disk
    (canonicalBuildFn false scenarioEnvChanged) [artifactA, artifactB]

/-! ### A scenario with a dependency file shared by two artifacts -/

/-- Artifact `A` of the shared-dependency scenario. -/
def sharedA : Artifact := ⟨"A", "cA"⟩

/-- Artifact `B` of the shared-dependency scenario. -/
def sharedB : Artifact := ⟨"B", "cB"⟩

/-- An environment in which artifacts `A` and `B` both depend on the single
file `shared`. -/
def sharedDepEnv : CacheEnv :=
  { lister := fun n =>
      if n = "A" then some ["shared"]
      else if n = "B" then some ["shared"] else none
    fs := fun _ => "c0"
    localDigest := fun t =>
      if t = "A:t" then some "dA" else if t = "B:t" then some "dB" else none
    remoteDigest := fun _ => none
    tags := fun n => if n = "A" then "A:t" else if n = "B" then "B:t" else "" }

/-- The shared-dependency environment after the content of `shared` changed. -/
def sharedDepEnvChanged : CacheEnv :=
  { sharedDepEnv with fs := fun _ => "c1" }

/-- The cache file produced by building `A` and `B` once in the
shared-dependency environment. -/
def sharedDisk : Option (List String) :=
  (Build true true sharedDepEnv none (canonicalBuildFn true sharedDepEnv)
    [sharedA, sharedB]).disk

/-- A cache entry whose content hash matches `artifactA`'s current hash but
whose recorded tag is unknown to every digest source: a stale candidate hit. -/
def staleEntry : CacheEntry :=
  { hash := ("cfg1", [("dep1", "content1"), ("dep2", "content2")])
    digest := "dgst"
    tag := "unknown:tag" }

/-- A cache file holding only the stale entry for `artifact1`. -/
def staleDisk : Option (List String) := flushStore [("artifact1", staleEntry)]

/-- C1: End-to-end cache scenario.  For artifacts `artifact1` (deps `dep1`,
`dep2`) and `artifact2` (dep `dep3`) with initial contents
`content1`/`content2`/`content3`, the first `Build` call invokes the build
function on both artifacts and returns 2 results; a second call with unchanged
files invokes it on zero artifacts and still returns 2 results; after mutating
`dep1`'s content a third call invokes it on exactly `artifact1` and returns
2 results — identically when digests are resolved from the local image store
(`useLocalLookup = true`) and from the remote registry
(`useLocalLookup = false`). -/
theorem C1_end_to_end_scenario :
    localOut1.invoked = [artifactA, artifactB] ∧
    localOut1.res = .ok [⟨"artifact1", "artifact1:tag1"⟩,
      ⟨"artifact2", "artifact2:tag2"⟩] ∧
    localOut2.invoked = [] ∧
    localOut2.res = .ok [⟨"artifact1", "artifact1:tag1"⟩,
      ⟨"artifact2", "artifact2:tag2"⟩] ∧
    localOut3.invoked = [artifactA] ∧
    localOut3.res = .ok [⟨"artifact1", "artifact1:tag1"⟩,
      ⟨"artifact2", "artifact2:tag2"⟩] ∧
    remoteOut1.invoked = [artifactA, artifactB] ∧
    remoteOut1.res = .ok [⟨"artifact1", "artifact1:tag1@sha256:51ae7fa00c92"⟩,
      ⟨"artifact2", "artifact2:tag2@sha256:35bdf2619f59"⟩] ∧
    remoteOut2.invoked = [] ∧
    remoteOut2.res = .ok [⟨"artifact1", "artifact1:tag1@sha256:51ae7fa00c92"⟩,
      ⟨"artifact2", "artifact2:tag2@sha256:35bdf2619f59"⟩] ∧
    remoteOut3.invoked = [artifactA] ∧
    remoteOut3.res = .ok [⟨"artifact1", "artifact1:tag1@sha256:51ae7fa00c92"⟩,
      ⟨"artifact2", "artifact2:tag2@sha256:35bdf2619f59"⟩] :=
  ⟨rfl, rfl, rfl, rfl, rfl, rfl, rfl, rfl, rfl, rfl, rfl, rfl⟩

/-- Helper: with caching enabled, `buildFn` is invoked on exactly the miss
list, whether it succeeds or fails. -/
theorem Build_invoked_eq (useLocal : Bool) (env : CacheEnv)
    (disk : Option (List String))
    (buildFn : List Artifact → Except String (List BuildResult))
    (artifacts : List Artifact) :
    (Build true useLocal env disk buildFn artifacts).invoked =
      missList useLocal env (loadDisk disk) artifacts := by
  unfold Build
  cases hbf : buildFn (missList useLocal env (loadDisk disk) artifacts) <;>
    simp [hbf]

/-- Helper: with caching enabled and a successful `buildFn`, the outcome is
the merged results, the flushed updated store, and the miss list. -/
theorem Build_ok_eq (useLocal : Bool) (env : CacheEnv)
    (disk : Option (List String))
    (buildFn : List Artifact → Except String (List BuildResult))
    (artifacts : List Artifact) (rs : List BuildResult)
    (hbf : buildFn (missList useLocal env (loadDisk disk) artifacts) = .ok rs) :
    Build true useLocal env disk buildFn artifacts =
      { res := .ok (mergeResults useLocal env (loadDisk disk) rs artifacts)
        disk := flushStore (updateStore useLocal env
          (missList useLocal env (loadDisk disk) artifacts) (loadDisk disk))
        invoked := missList useLocal env (loadDisk disk) artifacts } := by
  unfold Build
  simp [hbf]

/-- C5: Stale-hit rejection.  If an artifact's fresh content hash matches the
stored hash but the digest lookup for the stored tag fails, returns no digest,
or returns a digest different from the recorded one, the artifact is
classified a miss and is among the artifacts handed to the build function;
it is never reported as a hit. -/
theorem C5_stale_hit_rejection (useLocal : Bool) (env : CacheEnv)
    (disk : Option (List String))
    (buildFn : List Artifact → Except String (List BuildResult))
    (artifacts : List Artifact) (a : Artifact) (h : ContentHash) (e : CacheEntry)
    (ha : a ∈ artifacts)
    (hh : computeHash env a = some h)
    (hl : lookupStore (loadDisk disk) a.imageName = some e)
    (hmatch : e.hash = h)
    (hbad : digestSource useLocal env e.tag = none ∨
      ∃ d, digestSource useLocal env e.tag = some d ∧ d ≠ e.digest) :
    resolveArtifact useLocal env (loadDisk disk) a = .miss ∧
    a ∈ (Build true useLocal env disk buildFn artifacts).invoked := by
  have hmiss : resolveArtifact useLocal env (loadDisk disk) a = .miss := by
    rcases hbad with hnone | ⟨d, hd, hne⟩
    · simp [resolveArtifact, hh, hl, hmatch, hnone]
    · simp [resolveArtifact, hh, hl, hmatch, hd, hne]
  refine ⟨hmiss, ?_⟩
  rw [Build_invoked_eq]
  exact List.mem_filter.mpr ⟨ha, by simp [hmiss, isHit]⟩

/-- Concrete input discharging C5: a stale entry for `artifact1` whose tag no
remote registry knows is rejected and the artifact is rebuilt. -/
theorem C5_stale_hit_rejection_witness :
    resolveArtifact false scenarioEnv (loadDisk staleDisk) artifactA = .miss ∧
    artifactA ∈ (Build true false scenarioEnv staleDisk
      (canonicalBuildFn false scenarioEnv) [artifactA]).invoked :=
  C5_stale_hit_rejection false scenarioEnv staleDisk
    (canonicalBuildFn false scenarioEnv) [artifactA] artifactA
    ("cfg1", [("dep1", "content1"), ("dep2", "content2")]) staleEntry
    (by decide) (by decide) (by decide) (by decide) (Or.inl (by decide))

/-- C6: Disabled-cache pass-through.  With caching disabled, `Build` hands
every requested artifact to the build function, returns its result unchanged,
and neither reads nor writes the persisted store. -/
theorem C6_disabled_cache_pass_through (useLocal : Bool) (env : CacheEnv)
    (disk : Option (List String))
    (buildFn : List Artifact → Except String (List BuildResult))
    (artifacts : List Artifact) :
    Build false useLocal env disk buildFn artifacts =
      { res := buildFn artifacts, disk := disk, invoked := artifacts } := rfl

/-- C7: Corrupt-store tolerance.  `Load` of the cache store returns the empty
mapping whenever the file is missing or its content is malformed; it never
fails. -/
theorem C7_corrupt_store_tolerance (disk : Option (List String))
    (hbad : disk = none ∨ ∃ t, disk = some t ∧ decodeStore t = none) :
    loadDisk disk = [] := by
  rcases hbad with hnone | ⟨t, ht, hdec⟩
  · rw [hnone]; rfl
  · rw [ht]; simp [loadDisk, hdec]

/-- Concrete inputs discharging C7: a missing cache file and a malformed one
both load as the empty store. -/
theorem C7_corrupt_store_tolerance_witness :
    loadDisk none = [] ∧ loadDisk (some ["garbage"]) = [] :=
  ⟨C7_corrupt_store_tolerance none (Or.inl rfl),
   C7_corrupt_store_tolerance (some ["garbage"])
     (Or.inr ⟨["garbage"], rfl, by decide⟩)⟩

/-- C8: Build-failure atomicity.  Whenever a `Build` call ends in an error,
the persisted store is exactly what it was before the call, and the error is
the build function's error on the artifacts it was invoked on, propagated
unchanged. -/
theorem C8_build_failure_atomicity (useCache useLocal : Bool) (env : CacheEnv)
    (disk : Option (List String))
    (buildFn : List Artifact → Except String (List BuildResult))
    (artifacts : List Artifact) (e : String)
    (herr : (Build useCache useLocal env disk buildFn artifacts).res = .error e) :
    (Build useCache useLocal env disk buildFn artifacts).disk = disk ∧
    buildFn (Build useCache useLocal env disk buildFn artifacts).invoked =
      .error e := by
  cases useCache with
  | false => exact ⟨rfl, herr⟩
  | true =>
    unfold Build at herr ⊢
    cases hbf : buildFn (missList useLocal env (loadDisk disk) artifacts) with
    | error e2 =>
      rw [hbf] at herr
      simp only [hbf]
      exact ⟨rfl, hbf.trans (by simpa using herr)⟩
    | ok rs =>
      rw [hbf] at herr
      simp at herr

/-- Concrete input discharging C8: a build function that always fails leaves
the cache file untouched and its error is propagated verbatim. -/
theorem C8_build_failure_atomicity_witness :
    (Build true true scenarioEnv none (fun _ => .error ("boom"))
      [artifactA]).disk = none ∧
    (fun (_ : List Artifact) => (.error ("boom") : Except String (List BuildResult)))
      ((Build true true scenarioEnv none (fun _ => .error ("boom"))
        [artifactA]).invoked) = .error ("boom") :=
  C8_build_failure_atomicity true true scenarioEnv none
    (fun _ => .error ("boom")) [artifactA] "boom" rfl

/-! ### Helper lemmas -/

/-- Membership in an insertion step. -/
theorem mem_insertSorted {x p : String} {l : List String} :
    x ∈ insertSorted p l ↔ x = p ∨ x ∈ l := by
  induction l with
  | nil => simp [insertSorted]
  | cons q rest ih =>
    by_cases hpq : strLe p q = true
    · simp [insertSorted, hpq]
    · simp only [insertSorted, hpq]
      simp [ih]
      tauto

/-- Sorting the dependency paths does not change which paths occur. -/
theorem mem_sortPaths {x : String} {l : List String} :
    x ∈ sortPaths l ↔ x ∈ l := by
  induction l with
  | nil => simp [sortPaths]
  | cons p rest ih => simp [sortPaths, mem_insertSorted, ih]

/-- Mapping two functions that agree on the list gives equal results. -/
theorem map_congr_mem {α β : Type} {l : List α} {f g : α → β}
    (h : ∀ a ∈ l, f a = g a) : l.map f = l.map g := by
  induction l with
  | nil => rfl
  | cons x rest ih =>
    simp only [List.map_cons]
    rw [h x (by simp), ih (fun a ha => h a (by simp [ha]))]

/-- Two maps over the same list agree pointwise on its members. -/
theorem eq_of_map_eq_mem {α β : Type} {l : List α} {f g : α → β} {a : α}
    (h : l.map f = l.map g) (ha : a ∈ l) : f a = g a := by
  induction l with
  | nil => cases ha
  | cons x rest ih =>
    simp only [List.map_cons, List.cons.injEq] at h
    rcases List.mem_cons.mp ha with rfl | ha2
    · exact h.1
    · exact ih h.2 ha2

/-- Looking up the key just put. -/
theorem lookupStore_putStore_self (st : Store) (k : String) (e : CacheEntry) :
    lookupStore (putStore st k e) k = some e := by
  induction st with
  | nil => simp [putStore, lookupStore]
  | cons kv rest ih =>
    by_cases hk : kv.1 = k
    · simp [putStore, hk, lookupStore]
    · simp [putStore, hk, lookupStore, ih]

/-- Looking up another key after a put. -/
theorem lookupStore_putStore_ne (st : Store) (k k2 : String) (e : CacheEntry)
    (hne : k2 ≠ k) : lookupStore (putStore st k e) k2 = lookupStore st k2 := by
  induction st with
  | nil =>
    simp only [putStore, lookupStore]
    rw [if_neg (fun h => hne h.symm)]
  | cons kv rest ih =>
    by_cases hk : kv.1 = k
    · subst hk
      simp only [putStore, if_pos rfl, lookupStore]
      rw [if_neg (fun h => hne h.symm), if_neg (fun h => hne h.symm)]
    · simp only [putStore, hk, if_false]
      by_cases hk2 : kv.1 = k2 <;> simp [lookupStore, hk2, ih]

/-- Updating the store for the misses does not touch other keys. -/
theorem lookupStore_updateStore_not_mem (u : Bool) (env : CacheEnv)
    (misses : List Artifact) (st : Store) (k : String)
    (hk : ∀ m ∈ misses, m.imageName ≠ k) :
    lookupStore (updateStore u env misses st) k = lookupStore st k := by
  induction misses generalizing st with
  | nil => rfl
  | cons m rest ih =>
    have hm : m.imageName ≠ k := hk m (by simp)
    have hrest : ∀ m2 ∈ rest, m2.imageName ≠ k :=
      fun m2 hm2 => hk m2 (by simp [hm2])
    cases hc : computeHash env m with
    | none => simpa [updateStore, List.foldl_cons, hc] using ih st hrest
    | some h =>
      have step : updateStore u env (m :: rest) st =
          updateStore u env rest (putStore st m.imageName (newEntry u env m h)) := by
        simp [updateStore, List.foldl_cons, hc]
      rw [step, ih _ hrest, lookupStore_putStore_ne _ _ _ _ (fun h2 => hm h2.symm)]

/-- Updating the store for the misses records the new entry for each miss,
provided the image names are pairwise distinct. -/
theorem lookupStore_updateStore_mem (u : Bool) (env : CacheEnv)
    (misses : List Artifact) (st : Store) (a : Artifact) (h : ContentHash)
    (hnames : (misses.map Artifact.imageName).Nodup)
    (ha : a ∈ misses) (hh : computeHash env a = some h) :
    lookupStore (updateStore u env misses st) a.imageName =
      some (newEntry u env a h) := by
  induction misses generalizing st with
  | nil => cases ha
  | cons m rest ih =>
    simp only [List.map_cons, List.nodup_cons] at hnames
    rcases List.mem_cons.mp ha with rfl | ha2
    · have hrest : ∀ m2 ∈ rest, m2.imageName ≠ a.imageName := by
        intro m2 hm2 heq
        exact hnames.1 (heq ▸ List.mem_map_of_mem Artifact.imageName hm2)
      have step : updateStore u env (a :: rest) st =
          updateStore u env rest (putStore st a.imageName (newEntry u env a h)) := by
        simp [updateStore, List.foldl_cons, hh]
      rw [step, lookupStore_updateStore_not_mem u env rest _ _ hrest,
        lookupStore_putStore_self]
    · cases hc : computeHash env m with
      | none => simpa [updateStore, List.foldl_cons, hc] using ih st hnames.2 ha2
      | some h2 =>
        have step : updateStore u env (m :: rest) st =
            updateStore u env rest (putStore st m.imageName (newEntry u env m h2)) := by
          simp [updateStore, List.foldl_cons, hc]
        rw [step, ih _ hnames.2 ha2]

/-- Two tokens are produced per dependency pair. -/
theorem length_encodePairs (ps : List (String × String)) :
    (encodePairs ps).length = 2 * ps.length := by
  induction ps with
  | nil => rfl
  | cons pc rest ih =>
    cases pc
    simp [encodePairs, ih]
    omega

/-- Decoding the pairs just encoded returns them with the rest untouched. -/
theorem decodePairs_encodePairs (ps : List (String × String)) (rest : List String) :
    decodePairs ps.length (encodePairs ps ++ rest) = some (ps, rest) := by
  induction ps with
  | nil => rfl
  | cons pc tail ih =>
    cases pc
    simp [encodePairs, decodePairs, ih]

/-- With enough fuel, decoding an encoded store succeeds. -/
theorem decodeStoreAux_encodeStore (s : Store) (fuel : Nat)
    (hfuel : (encodeStore s).length ≤ fuel) :
    decodeStoreAux fuel (encodeStore s) = some s := by
  induction s generalizing fuel with
  | nil => cases fuel <;> rfl
  | cons kv rest ih =>
    obtain ⟨k, e⟩ := kv
    obtain ⟨⟨cfg, pairs⟩, dg, tg⟩ := e
    have hlen : (encodeStore ((k, ⟨(cfg, pairs), dg, tg⟩) :: rest)).length =
        5 + 2 * pairs.length + (encodeStore rest).length := by
      simp [encodeStore, encodeEntry, length_encodePairs]
      omega
    cases fuel with
    | zero => rw [hlen] at hfuel; omega
    | succ f =>
      have hcnt : (String.mk (List.replicate pairs.length 'x')).length =
          pairs.length := by
        simp [String.length]
      have hrest : (encodeStore rest).length ≤ f := by
        rw [hlen] at hfuel; omega
      simp only [encodeStore, encodeEntry, List.cons_append, List.append_eq,
        decodeStoreAux, hcnt, decodePairs_encodePairs, ih f hrest]
      rfl

/-- Round trip: a flushed store loads back unchanged. -/
theorem loadDisk_flushStore (s : Store) : loadDisk (flushStore s) = s := by
  simp [loadDisk, flushStore, decodeStore,
    decodeStoreAux_encodeStore s (encodeStore s).length (Nat.le_refl _)]

/-- A found result carries the image name that was looked up. -/
theorem findResult_imageName (rs : List BuildResult) (n : String) (r : BuildResult)
    (h : findResult rs n = some r) : r.imageName = n := by
  induction rs with
  | nil => cases h
  | cons r2 rest ih =>
    by_cases hn : r2.imageName = n
    · simp only [findResult, hn, if_pos rfl] at h
      cases h; exact hn
    · simp only [findResult, hn, if_false] at h
      exact ih h

/-- Looking a member's image name up in the canonical result list of a
name-distinct artifact list returns exactly that artifact's result. -/
theorem findResult_map_of_nodup (l : List Artifact) (tagOf : Artifact → String)
    (a : Artifact) (hnames : (l.map Artifact.imageName).Nodup) (ha : a ∈ l) :
    findResult (l.map (fun m => ⟨m.imageName, tagOf m⟩)) a.imageName =
      some ⟨a.imageName, tagOf a⟩ := by
  induction l with
  | nil => cases ha
  | cons m rest ih =>
    simp only [List.map_cons, List.nodup_cons] at hnames
    rcases List.mem_cons.mp ha with rfl | ha2
    · simp [findResult]
    · have hne : m.imageName ≠ a.imageName := by
        intro heq
        exact hnames.1 (heq ▸ List.mem_map_of_mem Artifact.imageName ha2)
      simp only [List.map_cons, findResult, hne, if_false]
      exact ih hnames.2 ha2

/-- The decision for an artifact depends on the store only through the lookup
of its own image name. -/
theorem resolveArtifact_congr_store (u : Bool) (env : CacheEnv) (st1 st2 : Store)
    (a : Artifact) (h : lookupStore st1 a.imageName = lookupStore st2 a.imageName) :
    resolveArtifact u env st1 a = resolveArtifact u env st2 a := by
  unfold resolveArtifact
  rw [h]

/-- The decision for an artifact depends on the environment only through its
hash and the digest source. -/
theorem resolveArtifact_congr_env (u : Bool) (env1 env2 : CacheEnv) (st : Store)
    (a : Artifact) (hh : computeHash env1 a = computeHash env2 a)
    (hd : digestSource u env1 = digestSource u env2) :
    resolveArtifact u env1 st a = resolveArtifact u env2 st a := by
  unfold resolveArtifact
  rw [hh, hd]

/-- The hash is unchanged when every dependency's content is unchanged. -/
theorem computeHash_congr_fs (env1 env2 : CacheEnv) (a : Artifact)
    (deps : List String)
    (hl1 : env1.lister a.imageName = some deps)
    (hl2 : env2.lister a.imageName = some deps)
    (hfs : ∀ p ∈ deps, env1.fs p = env2.fs p) :
    computeHash env1 a = computeHash env2 a := by
  unfold computeHash
  rw [hl1, hl2]
  have hmap : (sortPaths deps).map (fun p => (p, env1.fs p)) =
      (sortPaths deps).map (fun p => (p, env2.fs p)) :=
    map_congr_mem (fun p hp => by rw [hfs p (mem_sortPaths.mp hp)])
  simp [hmap]

/-- A filter over a list none of whose members satisfy the predicate is empty. -/
theorem filter_eq_nil_of_none {α : Type} (l : List α) (p : α → Bool)
    (h : ∀ a ∈ l, p a = false) : l.filter p = [] := by
  induction l with
  | nil => rfl
  | cons x rest ih =>
    have h1 := h x (by simp)
    have h2 := ih (fun a ha => h a (by simp [ha]))
    simp [List.filter_cons, h1, h2]

/-- A filter that selects exactly one member of a duplicate-free list. -/
theorem filter_eq_single_of {α : Type} [DecidableEq α] (l : List α) (p : α → Bool)
    (a : α) (hnd : l.Nodup) (ha : a ∈ l) (hpa : p a = true)
    (honly : ∀ b ∈ l, p b = true → b = a) : l.filter p = [a] := by
  induction l with
  | nil => cases ha
  | cons x rest ih =>
    simp only [List.nodup_cons] at hnd
    rcases List.mem_cons.mp ha with rfl | ha2
    · have hnil : rest.filter p = [] := by
        apply filter_eq_nil_of_none
        intro b hb
        cases hpb : p b with
        | false => rfl
        | true => exact absurd ((honly b (by simp [hb]) hpb) ▸ hb) hnd.1
      simp [List.filter_cons, hpa, hnil]
    · have hx : p x = false := by
        cases hpx : p x with
        | false => rfl
        | true => exact absurd ((honly x (by simp) hpx) ▸ ha2) hnd.1
      simp only [List.filter_cons, hx]
      have := ih hnd.2 ha2 (fun b hb hpb => honly b (by simp [hb]) hpb)
      simpa [hx] using this

/-- Two filterMaps that agree on the list give equal results. -/
theorem filterMap_congr_mem {α β : Type} {l : List α} {f g : α → Option β}
    (h : ∀ a ∈ l, f a = g a) : l.filterMap f = l.filterMap g := by
  induction l with
  | nil => rfl
  | cons x rest ih =>
    simp only [List.filterMap_cons, h x (by simp),
      ih (fun a ha => h a (by simp [ha]))]

/-- Membership in the miss list means membership in the request with a miss
classification. -/
theorem mem_missList (u : Bool) (env : CacheEnv) (st : Store)
    (artifacts : List Artifact) (a : Artifact) :
    a ∈ missList u env st artifacts ↔
      a ∈ artifacts ∧ resolveArtifact u env st a = .miss := by
  simp only [missList, List.mem_filter]
  cases hr : resolveArtifact u env st a <;> simp [hr, isHit]

/-- A confirmed hit presupposes a computed hash, a stored entry, and the
stored hash matching the fresh one. -/
theorem resolveArtifact_hit_elim (u : Bool) (env : CacheEnv) (st : Store)
    (a : Artifact) (hhit : isHit (resolveArtifact u env st a) = true) :
    ∃ h e, computeHash env a = some h ∧
      lookupStore st a.imageName = some e ∧ e.hash = h := by
  cases hc : computeHash env a with
  | none =>
    have hm : resolveArtifact u env st a = .miss := by simp [resolveArtifact, hc]
    rw [hm] at hhit; simp [isHit] at hhit
  | some h =>
    cases hl : lookupStore st a.imageName with
    | none =>
      have hm : resolveArtifact u env st a = .miss := by
        simp [resolveArtifact, hc, hl]
      rw [hm] at hhit; simp [isHit] at hhit
    | some e =>
      by_cases hh : e.hash = h
      · exact ⟨h, e, rfl, rfl, hh⟩
      · have hm : resolveArtifact u env st a = .miss := by
          simp [resolveArtifact, hc, hl, hh]
        rw [hm] at hhit; simp [isHit] at hhit

/-- A hit's result carries the artifact's own image name. -/
theorem resolveArtifact_hit_imageName (u : Bool) (env : CacheEnv) (st : Store)
    (a : Artifact) (r : BuildResult)
    (hr : resolveArtifact u env st a = .hit r) : r.imageName = a.imageName := by
  cases hc : computeHash env a with
  | none =>
    have hm : resolveArtifact u env st a = .miss := by simp [resolveArtifact, hc]
    rw [hm] at hr; cases hr
  | some h =>
    cases hl : lookupStore st a.imageName with
    | none =>
      have hm : resolveArtifact u env st a = .miss := by
        simp [resolveArtifact, hc, hl]
      rw [hm] at hr; cases hr
    | some e =>
      by_cases hh : e.hash = h
      · cases hd : digestSource u env e.tag with
        | none =>
          have hm : resolveArtifact u env st a = .miss := by
            simp [resolveArtifact, hc, hl, hh, hd]
          rw [hm] at hr; cases hr
        | some d =>
          by_cases hdd : d = e.digest
          · have hm : resolveArtifact u env st a =
                .hit ⟨a.imageName, if u then e.tag else e.tag ++ "@" ++ d⟩ := by
              simp [resolveArtifact, hc, hl, hh, hd, hdd]
            rw [hm] at hr
            cases hr
            rfl
          · have hm : resolveArtifact u env st a = .miss := by
              simp [resolveArtifact, hc, hl, hh, hd, hdd]
            rw [hm] at hr; cases hr
      · have hm : resolveArtifact u env st a = .miss := by
          simp [resolveArtifact, hc, hl, hh]
        rw [hm] at hr; cases hr

/-- After the store update for the misses, an artifact that was a confirmed
hit keeps exactly its classification (image names are pairwise distinct). -/
theorem resolve_after_update_hit (u : Bool) (env : CacheEnv) (st : Store)
    (artifacts : List Artifact) (a : Artifact)
    (hnames : (artifacts.map Artifact.imageName).Nodup)
    (ha : a ∈ artifacts)
    (hhit : isHit (resolveArtifact u env st a) = true) :
    resolveArtifact u env
        (updateStore u env (missList u env st artifacts) st) a =
      resolveArtifact u env st a := by
  apply resolveArtifact_congr_store
  apply lookupStore_updateStore_not_mem
  intro m hm heq
  obtain ⟨hma, hmm⟩ := (mem_missList u env st artifacts m).mp hm
  have hmeq : m = a := List.inj_on_of_nodup_map hnames hma ha heq
  rw [hmeq] at hmm
  rw [hmm] at hhit
  simp [isHit] at hhit

/-- After the store update for the misses, a missed artifact whose hash is
computable and whose assigned tag has a resolvable digest becomes a confirmed
hit on the canonical tag. -/
theorem resolve_after_update_miss (u : Bool) (env : CacheEnv) (st : Store)
    (artifacts : List Artifact) (a : Artifact) (h : ContentHash) (dg : String)
    (hnames : (artifacts.map Artifact.imageName).Nodup)
    (ha : a ∈ artifacts)
    (hmiss : resolveArtifact u env st a = .miss)
    (hh : computeHash env a = some h)
    (hdg : digestSource u env (env.tags a.imageName) = some dg) :
    resolveArtifact u env
        (updateStore u env (missList u env st artifacts) st) a =
      .hit ⟨a.imageName, if u then env.tags a.imageName
        else env.tags a.imageName ++ "@" ++ dg⟩ := by
  have hmem : a ∈ missList u env st artifacts :=
    (mem_missList u env st artifacts a).mpr ⟨ha, hmiss⟩
  have hsub : List.Sublist (missList u env st artifacts) artifacts :=
    List.filter_sublist artifacts
  have hnd : ((missList u env st artifacts).map Artifact.imageName).Nodup :=
    hnames.sublist (hsub.map Artifact.imageName)
  have hlook := lookupStore_updateStore_mem u env
    (missList u env st artifacts) st a h hnd hmem hh
  unfold resolveArtifact
  rw [hh, hlook]
  simp [newEntry, hdg]

/-- C2: Idempotence of `Build`.  For every artifact list with pairwise
distinct image names, resolvable dependencies, and digest-resolvable tags,
running `Build` twice with an unchanged environment and a deterministic
builder consistent with the digest sources makes the second call invoke the
build function on zero artifacts and return the same `(imageName, tag)` pairs
as the first call. -/
theorem C2_idempotence (useLocal : Bool) (env : CacheEnv)
    (d0 : Option (List String)) (artifacts : List Artifact)
    (hnames : (artifacts.map Artifact.imageName).Nodup)
    (hlister : ∀ a ∈ artifacts, (env.lister a.imageName).isSome = true)
    (hdigest : ∀ a ∈ artifacts,
      (digestSource useLocal env (env.tags a.imageName)).isSome = true) :
    (Build true useLocal env
        (Build true useLocal env d0 (canonicalBuildFn useLocal env) artifacts).disk
        (canonicalBuildFn useLocal env) artifacts).invoked = [] ∧
    (Build true useLocal env
        (Build true useLocal env d0 (canonicalBuildFn useLocal env) artifacts).disk
        (canonicalBuildFn useLocal env) artifacts).res =
      (Build true useLocal env d0 (canonicalBuildFn useLocal env) artifacts).res := by
  have hbf1 : canonicalBuildFn useLocal env
      (missList useLocal env (loadDisk d0) artifacts) =
      .ok ((missList useLocal env (loadDisk d0) artifacts).map
        (fun a => ⟨a.imageName, canonicalTag useLocal env a⟩)) := rfl
  have hout1 := Build_ok_eq useLocal env d0 (canonicalBuildFn useLocal env)
    artifacts _ hbf1
  have hload1 : loadDisk
      (Build true useLocal env d0 (canonicalBuildFn useLocal env) artifacts).disk =
      updateStore useLocal env (missList useLocal env (loadDisk d0) artifacts)
        (loadDisk d0) := by
    rw [hout1]
    exact loadDisk_flushStore _
  have hpoint : ∀ a ∈ artifacts,
      resolveArtifact useLocal env
          (updateStore useLocal env (missList useLocal env (loadDisk d0) artifacts)
            (loadDisk d0)) a =
        (match resolveArtifact useLocal env (loadDisk d0) a with
         | .hit r => .hit r
         | .miss => .hit ⟨a.imageName, canonicalTag useLocal env a⟩) := by
    intro a ha
    cases hr : resolveArtifact useLocal env (loadDisk d0) a with
    | hit r =>
      have hkeep := resolve_after_update_hit useLocal env (loadDisk d0) artifacts a
        hnames ha (by rw [hr]; rfl)
      rw [hr] at hkeep
      exact hkeep
    | miss =>
      obtain ⟨deps, hdeps⟩ := Option.isSome_iff_exists.mp (hlister a ha)
      have hh : computeHash env a = some (a.config,
          (sortPaths deps).map (fun p => (p, env.fs p))) := by
        simp [computeHash, hdeps]
      obtain ⟨dg, hdg⟩ := Option.isSome_iff_exists.mp (hdigest a ha)
      have hnew := resolve_after_update_miss useLocal env (loadDisk d0) artifacts a
        _ dg hnames ha hr hh hdg
      rw [hnew]
      simp [canonicalTag, hdg]
  have hall : ∀ a ∈ artifacts,
      isHit (resolveArtifact useLocal env
        (updateStore useLocal env (missList useLocal env (loadDisk d0) artifacts)
          (loadDisk d0)) a) = true := by
    intro a ha
    rw [hpoint a ha]
    cases resolveArtifact useLocal env (loadDisk d0) a <;> rfl
  have hm2 : missList useLocal env
      (updateStore useLocal env (missList useLocal env (loadDisk d0) artifacts)
        (loadDisk d0)) artifacts = [] := by
    apply filter_eq_nil_of_none
    intro a ha
    simp [hall a ha]
  have hbf2 : canonicalBuildFn useLocal env
      (missList useLocal env (loadDisk
        (Build true useLocal env d0 (canonicalBuildFn useLocal env) artifacts).disk)
        artifacts) = .ok [] := by
    rw [hload1, hm2]
    rfl
  have hout2 := Build_ok_eq useLocal env
    (Build true useLocal env d0 (canonicalBuildFn useLocal env) artifacts).disk
    (canonicalBuildFn useLocal env) artifacts [] hbf2
  constructor
  · rw [Build_invoked_eq, hload1, hm2]
  · rw [hout2, hout1]
    simp only [loadDisk_flushStore]
    congr 1
    unfold mergeResults
    apply filterMap_congr_mem
    intro a ha
    rw [hpoint a ha]
    cases hr : resolveArtifact useLocal env (loadDisk d0) a with
    | hit r => rfl
    | miss =>
      have ham : a ∈ missList useLocal env (loadDisk d0) artifacts :=
        (mem_missList useLocal env (loadDisk d0) artifacts a).mpr ⟨ha, hr⟩
      have hnd1 : ((missList useLocal env (loadDisk d0) artifacts).map
          Artifact.imageName).Nodup :=
        hnames.sublist ((List.filter_sublist artifacts).map Artifact.imageName)
      rw [findResult_map_of_nodup (missList useLocal env (loadDisk d0) artifacts)
        (canonicalTag useLocal env) a hnd1 ham]

/-- Concrete input discharging C2: the two-artifact scenario, local mode,
starting from a missing cache file. -/
theorem C2_idempotence_witness :
    (Build true true scenarioEnv
        (Build true true scenarioEnv none (canonicalBuildFn true scenarioEnv)
          [artifactA, artifactB]).disk
        (canonicalBuildFn true scenarioEnv) [artifactA, artifactB]).invoked = [] ∧
    (Build true true scenarioEnv
        (Build true true scenarioEnv none (canonicalBuildFn true scenarioEnv)
          [artifactA, artifactB]).disk
        (canonicalBuildFn true scenarioEnv) [artifactA, artifactB]).res =
      (Build true true scenarioEnv none (canonicalBuildFn true scenarioEnv)
        [artifactA, artifactB]).res :=
  C2_idempotence true scenarioEnv none [artifactA, artifactB]
    (by decide) (by decide) (by decide)

/-- A name occurring in a result list is found by `findResult`. -/
theorem findResult_of_mem (rs : List BuildResult) (n : String)
    (h : n ∈ rs.map BuildResult.imageName) : ∃ r, findResult rs n = some r := by
  induction rs with
  | nil => simp at h
  | cons r rest ih =>
    by_cases hn : r.imageName = n
    · exact ⟨r, by simp [findResult, hn]⟩
    · simp only [List.map_cons, List.mem_cons] at h
      rcases h with h1 | h2
      · exact absurd h1.symm hn
      · obtain ⟨r2, hr2⟩ := ih h2
        exact ⟨r2, by simp [findResult, hn, hr2]⟩

/-- A filterMap that yields, for every member, a result with the member's
image name preserves the name sequence. -/
theorem filterMap_map_names (l : List Artifact) (f : Artifact → Option BuildResult)
    (h : ∀ a ∈ l, ∃ r, f a = some r ∧ r.imageName = a.imageName) :
    (l.filterMap f).map BuildResult.imageName = l.map Artifact.imageName := by
  induction l with
  | nil => rfl
  | cons x rest ih =>
    obtain ⟨r, hr, hn⟩ := h x (by simp)
    simp only [List.filterMap_cons, hr, List.map_cons, hn]
    rw [ih (fun a ha => h a (by simp [ha]))]

/-- C4: Order preservation.  Whenever the build function returns one result
per artifact it is invoked on, with matching image names in order, a
successful `Build` returns one result per requested artifact, with the image
names in exactly the input artifact order — regardless of which artifacts
were hits and which were misses. -/
theorem C4_order_preservation (useLocal : Bool) (env : CacheEnv)
    (disk : Option (List String))
    (buildFn : List Artifact → Except String (List BuildResult))
    (artifacts : List Artifact) (rs : List BuildResult)
    (hcover : ∀ l rs2, buildFn l = .ok rs2 →
      rs2.map BuildResult.imageName = l.map Artifact.imageName)
    (hres : (Build true useLocal env disk buildFn artifacts).res = .ok rs) :
    rs.map BuildResult.imageName = artifacts.map Artifact.imageName := by
  cases hbf : buildFn (missList useLocal env (loadDisk disk) artifacts) with
  | error e =>
    have herr : (Build true useLocal env disk buildFn artifacts).res = .error e := by
      unfold Build
      simp [hbf]
    rw [herr] at hres
    cases hres
  | ok rs0 =>
    have hout := Build_ok_eq useLocal env disk buildFn artifacts rs0 hbf
    rw [hout] at hres
    have hrs : mergeResults useLocal env (loadDisk disk) rs0 artifacts = rs := by
      cases hres
      rfl
    rw [← hrs]
    unfold mergeResults
    apply filterMap_map_names
    intro a ha
    cases hr : resolveArtifact useLocal env (loadDisk disk) a with
    | hit r =>
      exact ⟨r, by simp [hr],
        resolveArtifact_hit_imageName useLocal env (loadDisk disk) a r hr⟩
    | miss =>
      have hnames0 := hcover _ rs0 hbf
      have hm : a.imageName ∈ rs0.map BuildResult.imageName := by
        rw [hnames0]
        exact List.mem_map_of_mem Artifact.imageName
          ((mem_missList useLocal env (loadDisk disk) artifacts a).mpr ⟨ha, hr⟩)
      obtain ⟨r, hfr⟩ := findResult_of_mem rs0 a.imageName hm
      exact ⟨r, by simp [hr, hfr], findResult_imageName rs0 a.imageName r hfr⟩

/-- Concrete input discharging C4: the two-artifact scenario, local mode,
first call from an empty cache. -/
theorem C4_order_preservation_witness :
    ([⟨"artifact1", "artifact1:tag1"⟩, ⟨"artifact2", "artifact2:tag2"⟩] :
        List BuildResult).map BuildResult.imageName =
      [artifactA, artifactB].map Artifact.imageName :=
  C4_order_preservation true scenarioEnv none (canonicalBuildFn true scenarioEnv)
    [artifactA, artifactB]
    [⟨"artifact1", "artifact1:tag1"⟩, ⟨"artifact2", "artifact2:tag2"⟩]
    (by
      intro l rs2 h
      simp only [canonicalBuildFn, Except.ok.injEq] at h
      subst h
      simp [List.map_map])
    rfl

/-- C3 fails as stated: when two artifacts share a dependency file, changing
that file's content — a single dependency file of artifact `A` — causes both
artifacts to be classified as misses and rebuilt, not exactly `A`.  Starting
from a cache state in which all artifacts would be hits (the first conjunct),
the rebuild after the change is `[A, B]`, not `[A]`. -/
theorem C3_invalidation_counterexample :
    (Build true true sharedDepEnv sharedDisk (canonicalBuildFn true sharedDepEnv)
      [sharedA, sharedB]).invoked = [] ∧
    (Build true true sharedDepEnvChanged sharedDisk
      (canonicalBuildFn true sharedDepEnvChanged) [sharedA, sharedB]).invoked =
      [sharedA, sharedB] ∧
    (Build true true sharedDepEnvChanged sharedDisk
      (canonicalBuildFn true sharedDepEnvChanged) [sharedA, sharedB]).invoked ≠
      [sharedA] := by
  refine ⟨rfl, rfl, ?_⟩
  decide

/-- C3 (amended): Invalidation is exact for unshared dependency files.  For
every cached state in which all artifacts would be hits, changing the content
of a single dependency file of one artifact that no other artifact depends on
causes exactly that artifact to be classified a miss and handed to the build
function on the next call; every artifact not depending on the changed file
remains a cache hit. -/
theorem C3_invalidation_amended (useLocal : Bool) (env env2 : CacheEnv)
    (disk : Option (List String))
    (buildFn : List Artifact → Except String (List BuildResult))
    (artifacts : List Artifact) (a0 : Artifact) (p : String)
    (deps0 : List String)
    (hnames : (artifacts.map Artifact.imageName).Nodup)
    (ha0 : a0 ∈ artifacts)
    (hallhit : ∀ a ∈ artifacts,
      isHit (resolveArtifact useLocal env (loadDisk disk) a) = true)
    (hlister : env2.lister = env.lister)
    (hlocal : env2.localDigest = env.localDigest)
    (hremote : env2.remoteDigest = env.remoteDigest)
    (hchanged : env2.fs p ≠ env.fs p)
    (hother : ∀ q, q ≠ p → env2.fs q = env.fs q)
    (hdeps : env.lister a0.imageName = some deps0)
    (hp : p ∈ deps0)
    (honly : ∀ b ∈ artifacts, b ≠ a0 → ∀ db,
      env.lister b.imageName = some db → p ∉ db) :
    (Build true useLocal env2 disk buildFn artifacts).invoked = [a0] ∧
    ∀ b ∈ artifacts, b ≠ a0 →
      isHit (resolveArtifact useLocal env2 (loadDisk disk) b) = true := by
  have hdsrc : digestSource useLocal env2 = digestSource useLocal env := by
    cases useLocal <;> simp [digestSource, hlocal, hremote]
  have hothers : ∀ b ∈ artifacts, b ≠ a0 →
      isHit (resolveArtifact useLocal env2 (loadDisk disk) b) = true := by
    intro b hb hbne
    obtain ⟨h, e, hcb, hlb, hhb⟩ :=
      resolveArtifact_hit_elim useLocal env (loadDisk disk) b (hallhit b hb)
    cases hdb : env.lister b.imageName with
    | none =>
      unfold computeHash at hcb
      rw [hdb] at hcb
      simp at hcb
    | some db =>
      have hpnot := honly b hb hbne db hdb
      have hcong : computeHash env2 b = computeHash env b :=
        computeHash_congr_fs env2 env b db (by rw [hlister]; exact hdb) hdb
          (fun q hq => hother q (fun hqp => hpnot (hqp ▸ hq)))
      rw [resolveArtifact_congr_env useLocal env2 env (loadDisk disk) b hcong hdsrc]
      exact hallhit b hb
  have hh2 : computeHash env2 a0 = some (a0.config,
      (sortPaths deps0).map (fun q => (q, env2.fs q))) := by
    unfold computeHash
    rw [hlister, hdeps]
    rfl
  obtain ⟨h0, e0, hc0, hl0, hhash0⟩ :=
    resolveArtifact_hit_elim useLocal env (loadDisk disk) a0 (hallhit a0 ha0)
  have hc0b : computeHash env a0 = some (a0.config,
      (sortPaths deps0).map (fun q => (q, env.fs q))) := by
    unfold computeHash
    rw [hdeps]
    rfl
  have hform : h0 = (a0.config, (sortPaths deps0).map (fun q => (q, env.fs q))) := by
    rw [hc0] at hc0b
    cases hc0b
    rfl
  have hneq : ¬ (e0.hash = (a0.config,
      (sortPaths deps0).map (fun q => (q, env2.fs q)))) := by
    intro heq
    rw [hhash0, hform] at heq
    have hsnd := congrArg Prod.snd heq
    have hpair := eq_of_map_eq_mem hsnd.symm (mem_sortPaths.mpr hp)
    exact hchanged (congrArg Prod.snd hpair)
  have hmiss : resolveArtifact useLocal env2 (loadDisk disk) a0 = .miss := by
    simp [resolveArtifact, hh2, hl0, hneq]
  refine ⟨?_, hothers⟩
  rw [Build_invoked_eq]
  apply filter_eq_single_of artifacts _ a0 (List.Nodup.of_map Artifact.imageName hnames) ha0
  · simp [hmiss, isHit]
  · intro b hb hpb
    by_contra hbne
    rw [hothers b hb hbne] at hpb
    simp at hpb

/-- Concrete input discharging the amended C3: in the two-artifact scenario,
after mutating `dep1` (a dependency of `artifact1` only), exactly `artifact1`
is rebuilt and `artifact2` stays a hit. -/
theorem C3_invalidation_amended_witness :
    (Build true true scenarioEnvChanged localOut1.disk
      (canonicalBuildFn true scenarioEnvChanged) [artifactA, artifactB]).invoked
      = [artifactA] ∧
    ∀ b ∈ [artifactA, artifactB], b ≠ artifactA →
      isHit (resolveArtifact true scenarioEnvChanged (loadDisk localOut1.disk) b)
        = true :=
  C3_invalidation_amended true scenarioEnv scenarioEnvChanged localOut1.disk
    (canonicalBuildFn true scenarioEnvChanged) [artifactA, artifactB] artifactA
    "dep1" ["dep1", "dep2"]
    (by decide) (by decide) (by decide) rfl rfl rfl (by decide)
    (by
      intro q hq
      simp [scenarioEnvChanged, hq])
    rfl (by decide)
    (by
      intro b hb hbne db hdb
      simp only [List.mem_cons, List.not_mem_nil, or_false] at hb
      rcases hb with rfl | rfl
      · exact absurd rfl hbne
      · have h2 : (some ["dep3"] : Option (List String)) = some db :=
          Eq.trans (by rfl) hdb
        injection h2 with h3
        subst h3
        decide)

/-- C9: The cluster builder's `DependenciesForArtifact` supports only Kaniko
artifacts: with no Kaniko artifact it returns the "undefined artifact type"
error; a dependency-resolution failure is returned unchanged; otherwise the
returned paths are the Dockerfile dependencies resolved to absolute paths
against the artifact's workspace. -/
theorem C9_cluster_dependencies
    (getDeps : String → KanikoArtifact → Except String (List String))
    (a : ClusterArtifact) :
    (a.kanikoArtifact = none →
      DependenciesForArtifact getDeps a = .error ("undefined artifact type")) ∧
    (∀ k, a.kanikoArtifact = some k →
      (∀ e, getDeps a.workspace k = .error e →
        DependenciesForArtifact getDeps a = .error e) ∧
      (∀ ps, getDeps a.workspace k = .ok ps →
        DependenciesForArtifact getDeps a =
          .ok (ps.map (absolutePath a.workspace)))) := by
  refine ⟨?_, ?_⟩
  · intro hn
    simp [DependenciesForArtifact, hn]
  · intro k hk
    refine ⟨?_, ?_⟩
    · intro e he
      simp [DependenciesForArtifact, hk, he]
    · intro ps hs
      simp [DependenciesForArtifact, hk, hs, absolutePaths]

/-- Concrete inputs discharging C9: a non-Kaniko artifact is rejected, and a
Kaniko artifact's relative dependency is made absolute. -/
theorem C9_cluster_dependencies_witness :
    DependenciesForArtifact (fun _ _ => .ok (["Dockerfile"])) ⟨"img", "ws", none⟩ =
      .error ("undefined artifact type") ∧
    DependenciesForArtifact (fun _ _ => .ok (["Dockerfile"]))
        ⟨"img", "ws", some ⟨"Dockerfile", []⟩⟩ =
      .ok ["ws/Dockerfile"] :=
  ⟨(C9_cluster_dependencies (fun _ _ => .ok (["Dockerfile"]))
      ⟨"img", "ws", none⟩).1 rfl,
   by
     have h := ((C9_cluster_dependencies (fun _ _ => .ok (["Dockerfile"]))
       ⟨"img", "ws", some ⟨"Dockerfile", []⟩⟩).2 ⟨"Dockerfile", []⟩ rfl).2
       ["Dockerfile"] rfl
     exact h.trans (congrArg Except.ok (by decide))⟩

/-- Folding destination appends equals the flattened destination lists. -/
theorem foldl_append_eq_flatten (files : SyncMap) (acc : List String) :
    files.foldl (fun acc dsts => acc ++ dsts.2) acc =
      acc ++ (files.map Prod.snd).flatten := by
  induction files generalizing acc with
  | nil => simp
  | cons x rest ih =>
    simp only [List.foldl_cons, List.map_cons, List.flatten_cons, ih,
      List.append_assoc]

/-- C10: `deleteFileFn` invokes kubectl with the fixed
`exec <pod> --namespace <ns> -c <container> -- rm -rf --` prefix followed by
exactly the destination path lists of the sync map concatenated in iteration
order; every argument is either one of the fixed tokens or a destination
path — source paths as such never enter the argument list. -/
theorem C10_delete_command (pod : PodMeta) (container : Container)
    (files : SyncMap) :
    deleteFileFn pod container files =
      ⟨"kubectl", ["exec", pod.name, "--namespace", pod.nspace, "-c",
        container.name, "--", "rm", "-rf", "--"] ++
        (files.map Prod.snd).flatten⟩ ∧
    ∀ s ∈ (deleteFileFn pod container files).args,
      s ∈ ["exec", pod.name, "--namespace", pod.nspace, "-c", container.name,
        "--", "rm", "-rf", "--"] ∨ ∃ dsts ∈ files.map Prod.snd, s ∈ dsts := by
  have heq : deleteFileFn pod container files =
      ⟨"kubectl", ["exec", pod.name, "--namespace", pod.nspace, "-c",
        container.name, "--", "rm", "-rf", "--"] ++
        (files.map Prod.snd).flatten⟩ :=
    congrArg (fun l => (⟨"kubectl", l⟩ : Cmd))
      (foldl_append_eq_flatten files ["exec", pod.name, "--namespace",
        pod.nspace, "-c", container.name, "--", "rm", "-rf", "--"])
  refine ⟨heq, ?_⟩
  intro s hs
  rw [heq] at hs
  rcases List.mem_append.mp hs with h1 | h2
  · exact Or.inl h1
  · exact Or.inr (List.mem_flatten.mp h2)

/-- Concrete input discharging C10: a destination path appears among the
arguments via the destination lists. -/
theorem C10_delete_command_witness :
    (deleteFileFn ⟨"pod1", "ns1"⟩ ⟨"ctr"⟩ [("src1", ["dst1", "dst2"])] =
      ⟨"kubectl", ["exec", "pod1", "--namespace", "ns1", "-c", "ctr",
        "--", "rm", "-rf", "--", "dst1", "dst2"]⟩) ∧
    ("dst1" ∈ ["exec", "pod1", "--namespace", "ns1", "-c", "ctr",
        "--", "rm", "-rf", "--"] ∨
      ∃ dsts ∈ [("src1", ["dst1", "dst2"])].map Prod.snd, "dst1" ∈ dsts) :=
  ⟨(C10_delete_command ⟨"pod1", "ns1"⟩ ⟨"ctr"⟩ [("src1", ["dst1", "dst2"])]).1,
   (C10_delete_command ⟨"pod1", "ns1"⟩ ⟨"ctr"⟩ [("src1", ["dst1", "dst2"])]).2
     "dst1" (by decide)⟩

end Skaffold
